import Mathlib

/-!
Verification development for the chatbot conversation-orchestration core
(`src/api/chatbot/agent.py` and `src/api/chatbot/routers/chat.py`).

The Python code is shallowly embedded: pure functions become Lean functions,
fallible Python code (statements that can raise) returns `Except PyExc _`,
mutable metadata bags become optional fields on a `Msg` structure, and the
langgraph state machine becomes an explicit step function with fuel.
-/

namespace Chatbot

/-- Message role, mirroring langchain message types
(SystemMessage / HumanMessage / AIMessage / ToolMessage). -/
inductive Role
  | system
  | user
  | assistant
  | tool
  deriving DecidableEq, Repr

/-- Usage metadata carried on a final model message
(`msg.usage_metadata` with `input_tokens` and `output_tokens`). -/
structure UsageMetadata where
  inputTokens : Nat
  outputTokens : Nat
  deriving DecidableEq, Repr

/-- A chat message: role, content, and the fields of the mutable
`additional_kwargs` / `response_metadata` bags that the code reads or writes
(`hazard`, `sent_at`, `tool_calls`, `usage_metadata`, `model_name`). -/
structure Msg where
  role : Role
  content : String
  hazard : Option String := none
  sentAt : Option String := none
  toolCalls : List String := []
  usageMetadata : Option UsageMetadata := none
  modelName : Option String := none
  deriving DecidableEq, Repr

/-- The quote character, written by code point to keep character literals plain. -/
def quoteChar : Char := Char.ofNat 34

/-- Python exceptions that the embedded code can raise. -/
inductive PyExc
  | indexError
  | typeError (msg : String)
  | keyError (key : String)
  | webSocketException (code : Nat) (reason : String)
  | webSocketDisconnect
  | metricsError
  deriving DecidableEq, Repr

/-- Total cost of a message list under a per-message token counter. -/
def sumCost (C : Msg → Nat) (l : List Msg) : Nat := (l.map C).sum

/-- Modelled from the spec: the backward budget scan of the Context Window
Trimmer (the `trim_messages` library function called at `agent.py:119` and
`chat.py:132` is not part of this repository, so its algorithm is taken from
spec section 4.1). The input list is newest-first; messages are kept while the
accumulated cost stays within the budget, and the scan stops at the first
message that would exceed it. -/
def trimAcc (C : Msg → Nat) (B : Nat) : Nat → List Msg → List Msg
  | _, [] => []
  | acc, m :: rest =>
    if acc + C m ≤ B then m :: trimAcc C B (acc + C m) rest else []

/-- Modelled from the spec: the longest contiguous suffix of `msgs` whose total
cost is within budget `B` (spec section 4.1, first phase of the trimmer). -/
def budgetSuffix (C : Msg → Nat) (B : Nat) (msgs : List Msg) : List Msg :=
  (trimAcc C B 0 msgs.reverse).reverse

/-- Modelled from the spec: the `start_on="human"` phase of the trimmer —
drop leading messages until the first retained message has role `user`
(spec section 4.1, second phase). -/
def startOnUser (msgs : List Msg) : List Msg :=
  msgs.dropWhile (fun m => !(decide (m.role = Role.user)))

/-- Modelled from the spec: the Context Window Trimmer of spec section 4.1,
standing in for the `trim_messages(..., max_tokens=B, start_on="human")`
library call at `agent.py:119`: budget scan from the newest message backward,
then trim to start on a `user` message. -/
def trimMessages (C : Msg → Nat) (B : Nat) (msgs : List Msg) : List Msg :=
  startOnUser (budgetSuffix C B msgs)

/-! ### Embedding of `src/api/chatbot/agent.py` -/

/-- The hint text synthesized at `agent.py:108`. The Python code interpolates
`hazard_categories.get(hazard)` into an f-string, so a missing category
renders as the text `None`. -/
def hintText (categoryDescription : Option String) : String :=
  "The user input may contain inproper content related to:\n"
    ++ (match categoryDescription with | some d => d | none => "None")
    ++ "\n\nPlease respond with care and professionalism. Avoid engaging with harmful or unethical content. Instead, guide the user towards more constructive and respectful communication."

/-- The ephemeral system hint message built in the `chatbot` node when the last
message carries a hazard tag (`agent.py:106`). `hazardCat` embeds the
`hazard_categories` lookup table from `chatbot/safety.py`. -/
def mkHint (hazardCat : String → Option String) (h : String) : Msg :=
  { role := Role.system, content := hintText (hazardCat h) }

/-- Embeds the Python expression `state["messages"] + hint_message` at
`agent.py:115`: the left operand is a list and the right operand is a single
`SystemMessage`, so `list.__add__` rejects it and `BaseMessage` defines no
`__radd__`; the expression raises `TypeError`. -/
def pyListAddMessage (_msgs : List Msg) (_m : Msg) : Except PyExc (List Msg) :=
  Except.error (PyExc.typeError "can only concatenate list (not SystemMessage) to list")

/-- The `input_guard` node (`agent.py:61`). When a classifier is configured it
classifies only the last message; on verdict `unsafe` with a non-null category
it merges the hazard category into that message s metadata. Returning the
updated last message through the `add_messages` reducer replaces the message
with the same id, so the effective state is the original list with its last
element updated. -/
def inputGuard (classifier : Option (List Msg → String × Option String)) (msgs : List Msg) :
    Except PyExc (List Msg) :=
  match classifier with
  | none => Except.ok msgs
  | some cls =>
    match msgs.getLast? with
    | none => Except.error PyExc.indexError
    | some last =>
      let r := cls [last]
      if r.1 == "unsafe" then
        match r.2 with
        | some category => Except.ok (msgs.dropLast ++ [{ last with hazard := some category }])
        | none => Except.ok msgs
      else Except.ok msgs

/-- The `chatbot` node (`agent.py:86`), returning the state delta (the list of
newly produced messages). The walrus condition
`if hazard := ...get("hazard"):` is truthiness, so an empty-string category
produces no hint. `state["messages"][-1]` and `windowed_messages[-1]` raise
`IndexError` on an empty list, and adding the hint uses `pyListAddMessage`. -/
def chatbot (hazardCat : String → Option String) (C : Msg → Nat) (B : Nat)
    (model : List Msg → String → Msg) (now : String) (msgs : List Msg) :
    Except PyExc (List Msg) :=
  match msgs.getLast? with
  | none => Except.error PyExc.indexError
  | some last =>
    let hintMessage : Option Msg :=
      match last.hazard with
      | some h => if h = "" then none else some (mkHint hazardCat h)
      | none => none
    match (match hintMessage with
           | some h => pyListAddMessage msgs h
           | none => Except.ok msgs) with
    | Except.error e => Except.error e
    | Except.ok allMessages =>
      let windowedMessages := trimMessages C B allMessages
      match windowedMessages.getLast? with
      | none => Except.error PyExc.indexError
      | some lastW =>
        Except.ok [model windowedMessages (lastW.sentAt.getD now)]

/-- The nodes of the compiled langgraph state machine built in `create_agent`. -/
inductive GNode
  | inputGuardNode
  | chatbotNode
  | toolsNode
  | terminalNode
  deriving DecidableEq, Repr

/-- `should_continue` (`agent.py:144`): route to the tools node when the last
message carries pending tool calls, otherwise to the terminal state. -/
def shouldContinue (msgs : List Msg) : Except PyExc GNode :=
  match msgs.getLast? with
  | none => Except.error PyExc.indexError
  | some last =>
    Except.ok (if last.toolCalls.isEmpty then GNode.terminalNode else GNode.toolsNode)

/-- The outgoing edge of the `chatbot` node (`agent.py:156` and
`agent.py:161`): conditional via `should_continue` when tools are configured,
otherwise a fixed edge to the terminal state. -/
def chatbotNext (hasTools : Bool) (msgs : List Msg) : Except PyExc GNode :=
  if hasTools then shouldContinue msgs else Except.ok GNode.terminalNode

/-- The `ToolNode` (`agent.py:55`): execute each tool call requested by the
last message and append one tool-result message per invocation. -/
def toolNode (toolExec : String → Msg) (msgs : List Msg) : Except PyExc (List Msg) :=
  match msgs.getLast? with
  | none => Except.error PyExc.indexError
  | some last => Except.ok (msgs ++ last.toolCalls.map toolExec)

/-- Configuration captured by the `create_agent` closure: the optional hazard
classifier, the hazard-category table, the token counter and the generation
budget `max_input_tokens`, the chat model, the tool executor, and whether any
tools were configured. -/
structure AgentCfg where
  classifier : Option (List Msg → String × Option String) := none
  hazardCat : String → Option String := fun _ => none
  tokenCounter : Msg → Nat
  maxInputTokens : Nat
  model : List Msg → String → Msg
  toolExec : String → Msg
  hasTools : Bool
  now : String

/-- One transition of the compiled state machine: run the current node and
follow its outgoing edge (`agent.py:151` through `agent.py:163`). -/
def agentStep (cfg : AgentCfg) : GNode × List Msg → Except PyExc (GNode × List Msg)
  | (GNode.inputGuardNode, msgs) =>
    match inputGuard cfg.classifier msgs with
    | Except.error e => Except.error e
    | Except.ok msgs2 => Except.ok (GNode.chatbotNode, msgs2)
  | (GNode.chatbotNode, msgs) =>
    match chatbot cfg.hazardCat cfg.tokenCounter cfg.maxInputTokens cfg.model cfg.now msgs with
    | Except.error e => Except.error e
    | Except.ok delta =>
      match chatbotNext cfg.hasTools (msgs ++ delta) with
      | Except.error e => Except.error e
      | Except.ok nxt => Except.ok (nxt, msgs ++ delta)
  | (GNode.toolsNode, msgs) =>
    match toolNode cfg.toolExec msgs with
    | Except.error e => Except.error e
    | Except.ok msgs2 => Except.ok (GNode.chatbotNode, msgs2)
  | (GNode.terminalNode, msgs) => Except.ok (GNode.terminalNode, msgs)

/-- Result of driving the state machine with a given amount of fuel. -/
inductive RunResult
  | finished (msgs : List Msg)
  | crashed (e : PyExc)
  | outOfFuel (node : GNode) (msgs : List Msg)
  deriving DecidableEq, Repr

/-- Whether a run result is still mid-execution (fuel exhausted before the
terminal state). -/
def RunResult.isOutOfFuel : RunResult → Bool
  | RunResult.outOfFuel _ _ => true
  | _ => false

/-- Drive the compiled state machine for at most `fuel` transitions. -/
def agentRun (cfg : AgentCfg) : Nat → GNode × List Msg → RunResult
  | 0, st =>
    if st.1 = GNode.terminalNode then RunResult.finished st.2
    else RunResult.outOfFuel st.1 st.2
  | n + 1, st =>
    if st.1 = GNode.terminalNode then RunResult.finished st.2
    else
      match agentStep cfg st with
      | Except.error e => RunResult.crashed e
      | Except.ok st2 => agentRun cfg n st2

/-! ### Embedding of `src/api/chatbot/routers/chat.py` -/

/-- The discriminating `event["event"]` kind of a raw langchain stream event,
with the payload the router reads for that kind. -/
inductive EventKind
  | modelStart
  | modelStream (chunk : String)
  | modelEnd (output : Msg)
  | otherEvent (evt : String)
  deriving DecidableEq, Repr

/-- A raw event from `agent.astream_events`: name, tags, run id, and kind. -/
structure RunEvent where
  name : String
  tags : List String
  runId : String
  kind : EventKind
  deriving DecidableEq, Repr

/-- `event_name.startswith(marker)` for the one-character private marker:
true exactly when the first character of the name is the underscore. -/
def startsWithPrivateMarker (s : String) : Bool :=
  match s.data with
  | [] => false
  | c :: _ => c == '_'

/-- The two drop rules at `chat.py:71` and `chat.py:79`: events whose name
starts with the private marker and events tagged `internal` are skipped. -/
def surviving (e : RunEvent) : Bool :=
  !(startsWithPrivateMarker e.name) && !(e.tags.contains "internal")

/-- An outbound frame: `AIChatStartMessage`, `AIChatMessage` (chunk),
`AIChatEndMessage`, or `InfoMessage`. -/
inductive Frame
  | startMsg (parentId runId : String) (conversation : Option String)
  | chunkMsg (parentId runId : String) (conversation : Option String) (content : String)
  | endMsg (parentId runId : String) (conversation : Option String)
  | infoMsg (conversation : Option String) (contentType : String) (payload : String)
  deriving DecidableEq, Repr

/-- The kind-to-frame mapping of the translator (`chat.py:85` through
`chat.py:107`): model-start, model-stream and model-end produce one frame
each; every other event kind produces none. -/
def frameOf (pid : String) (conv : Option String) (e : RunEvent) : Option Frame :=
  match e.kind with
  | EventKind.modelStart => some (Frame.startMsg pid e.runId conv)
  | EventKind.modelStream c => some (Frame.chunkMsg pid e.runId conv c)
  | EventKind.modelEnd _ => some (Frame.endMsg pid e.runId conv)
  | EventKind.otherEvent _ => none

/-- The streaming event translator shared by both transports: drop private and
internal events, then map surviving model events to frames in receipt order. -/
def translate (pid : String) (conv : Option String) (events : List RunEvent) : List Frame :=
  (events.filter surviving).filterMap (frameOf pid conv)

def kindIsStart : EventKind → Bool
  | EventKind.modelStart => true
  | _ => false

def kindIsStream : EventKind → Bool
  | EventKind.modelStream _ => true
  | _ => false

def kindIsEnd : EventKind → Bool
  | EventKind.modelEnd _ => true
  | _ => false

/-- Whether an event kind is one of the three model lifecycle kinds that the
translator maps to frames. -/
def kindIsModel (k : EventKind) : Bool :=
  kindIsStart k || kindIsStream k || kindIsEnd k

/-- The chunk text of a stream event kind. -/
def streamContent : EventKind → String
  | EventKind.modelStream c => c
  | _ => ""

/-- The surviving model lifecycle events of a raw event sequence. -/
def modelSurvivors (events : List RunEvent) : List RunEvent :=
  (events.filter surviving).filter (fun e => kindIsModel e.kind)

/-- The two prometheus counter families of `chatbot/metrics/llm.py`, as maps
from a `(user_id, model_name)` label pair to the counter value. -/
structure UsageCounters where
  inputTokens : String × String → Nat
  outputTokens : String × String → Nat

/-- `counter.labels(user_id, model_name).inc(k)`: add `k` at one label pair. -/
def counterInc (c : String × String → Nat) (lbl : String × String) (k : Nat) :
    String × String → Nat :=
  fun p => if p = lbl then c p + k else c p

/-- The usage-accounting block run after an End frame (`chat.py:108` through
`chat.py:117`): when the final message carries usage metadata, increment both
counters labeled by requesting user and model name; reading a missing
`model_name` from `response_metadata` raises `KeyError`; absent usage metadata
increments nothing. -/
def updateUsage (ctrs : UsageCounters) (userid : String) (out : Msg) :
    Except PyExc UsageCounters :=
  match out.usageMetadata with
  | none => Except.ok ctrs
  | some u =>
    match out.modelName with
    | none => Except.error (PyExc.keyError "model_name")
    | some name =>
      Except.ok
        { inputTokens := counterInc ctrs.inputTokens (userid, name) u.inputTokens
          outputTokens := counterInc ctrs.outputTokens (userid, name) u.outputTokens }

/-- The usage-accounting block with an externally injected failure mode:
`metricsFail out = true` means the prometheus `inc` call raises for this
message. The code only touches the counters when usage metadata is present. -/
def metricsCall (metricsFail : Msg → Bool) (ctrs : UsageCounters) (userid : String)
    (out : Msg) : Except PyExc UsageCounters :=
  match out.usageMetadata with
  | none => Except.ok ctrs
  | some _ =>
    if metricsFail out then Except.error PyExc.metricsError
    else updateUsage ctrs userid out

/-- The `async for event in agent.astream_events` loop body (`chat.py:61`
through `chat.py:117`): filter, emit frames in receipt order, and run the
usage-accounting side effect after each End frame. The End frame is sent
before the metrics call, and an exception raised by the metrics call
propagates out of the loop, so the returned frames stop right after the
failing End frame and the error is reported. -/
def turnLoop (userid pid : String) (conv : Option String) (metricsFail : Msg → Bool) :
    List RunEvent → UsageCounters → List Frame × UsageCounters × Option PyExc
  | [], ctrs => ([], ctrs, none)
  | e :: rest, ctrs =>
    if surviving e then
      match e.kind with
      | EventKind.modelStart =>
        let r := turnLoop userid pid conv metricsFail rest ctrs
        (Frame.startMsg pid e.runId conv :: r.1, r.2)
      | EventKind.modelStream c =>
        let r := turnLoop userid pid conv metricsFail rest ctrs
        (Frame.chunkMsg pid e.runId conv c :: r.1, r.2)
      | EventKind.modelEnd out =>
        match metricsCall metricsFail ctrs userid out with
        | Except.error ex => ([Frame.endMsg pid e.runId conv], ctrs, some ex)
        | Except.ok c2 =>
          let r := turnLoop userid pid conv metricsFail rest c2
          (Frame.endMsg pid e.runId conv :: r.1, r.2)
      | EventKind.otherEvent _ => turnLoop userid pid conv metricsFail rest ctrs
    else turnLoop userid pid conv metricsFail rest ctrs

/-- `title_raw.strip(quote)` on the underlying character list: Python
`str.strip` removes every leading and every trailing character from the strip
set, so all leading and all trailing quote characters are removed. -/
def stripQuoteList (l : List Char) : List Char :=
  ((l.dropWhile (fun c => c == quoteChar)).reverse.dropWhile (fun c => c == quoteChar)).reverse

/-- `title_raw.strip(quote)` at `chat.py:142` and `chat.py:260`. -/
def pyStripQuotes (s : String) : String := String.mk (stripQuoteList s.toList)

/-- Result of the title-summarization epilogue: the stored title and the Info
frame reporting it. -/
structure EpilogueOut where
  title : String
  infoFrame : Frame
  deriving DecidableEq, Repr

/-- The title epilogue (`chat.py:138` through `chat.py:155`): strip quotes
from the raw summarizer output, persist the result as the conversation title,
and emit one `title-generated` Info frame carrying it. -/
def titleEpilogue (conv : Option String) (rawTitle : String) : EpilogueOut :=
  let title := pyStripQuotes rawTitle
  { title := title, infoFrame := Frame.infoMsg conv "title-generated" title }

/-- One full turn after a successful authorization check: run the event loop,
and only when it completed without an exception run the epilogue (activity
update and, when requested, title summarization with its Info frame). An
exception anywhere skips the epilogue and is reported. -/
def runTurn (userid pid : String) (conv : Option String) (metricsFail : Msg → Bool)
    (requireSummarization : Bool) (rawTitle : String) (events : List RunEvent)
    (ctrs : UsageCounters) : List Frame × UsageCounters × Option PyExc :=
  match turnLoop userid pid conv metricsFail events ctrs with
  | (fs, c, some ex) => (fs, c, some ex)
  | (fs, c, none) =>
    let extra := if requireSummarization then [(titleEpilogue conv rawTitle).infoFrame] else []
    (fs ++ extra, c, none)

/-- Observable outcome of one turn on the websocket transport. -/
structure WsTurnOut where
  frames : List Frame
  counters : UsageCounters
  epilogueRan : Bool
  loggedError : Bool

/-- One turn as observed on the websocket transport: a mid-turn exception is
caught by the blanket handler at `chat.py:160`, which logs it and keeps the
loop alive; the epilogue only runs when the turn completed cleanly. -/
def wsTurn (userid pid : String) (conv : Option String) (metricsFail : Msg → Bool)
    (requireSummarization : Bool) (rawTitle : String) (events : List RunEvent)
    (ctrs : UsageCounters) : WsTurnOut :=
  match runTurn userid pid conv metricsFail requireSummarization rawTitle events ctrs with
  | (fs, c, none) => { frames := fs, counters := c, epilogueRan := true, loggedError := false }
  | (fs, c, some _) => { frames := fs, counters := c, epilogueRan := false, loggedError := true }

/-- The body of the `try` block of one websocket loop iteration (`chat.py:46`
through `chat.py:155`). The authorization check at `chat.py:53` runs before
`agent.astream_events`, and on mismatch raises `WebSocketException(3403)`.
The first component records whether the model-inference capability
(`astream_events`) was invoked. -/
def wsTryBody (owner userid pid : String) (conv : Option String) (metricsFail : Msg → Bool)
    (requireSummarization : Bool) (rawTitle : String) (events : List RunEvent)
    (ctrs : UsageCounters) : Bool × Except PyExc WsTurnOut :=
  if !(owner == userid) then
    (false, Except.error (PyExc.webSocketException 3403 "authorization error"))
  else
    (true, Except.ok (wsTurn userid pid conv metricsFail requireSummarization rawTitle events ctrs))

/-- Observable outcome of one iteration of the websocket serving loop. -/
structure WsIterationOut where
  modelInvoked : Bool
  channelClosed : Bool
  closeCode : Option Nat
  loggedError : Bool
  deriving DecidableEq, Repr

/-- One iteration of the `while True` websocket loop in `chat` (`chat.py:45`
through `chat.py:161`), with its two `except` clauses in source order:
`WebSocketDisconnect` returns (closing the serving loop), and every other
exception — including the `WebSocketException` raised by the authorization
check — is caught by the blanket `except Exception`, logged, and the loop
continues with the channel open. -/
def chatWsIteration (owner userid pid : String) (conv : Option String)
    (metricsFail : Msg → Bool) (requireSummarization : Bool) (rawTitle : String)
    (events : List RunEvent) (ctrs : UsageCounters) : WsIterationOut :=
  match wsTryBody owner userid pid conv metricsFail requireSummarization rawTitle events ctrs with
  | (inv, Except.ok out) =>
    { modelInvoked := inv, channelClosed := false, closeCode := none,
      loggedError := out.loggedError }
  | (inv, Except.error PyExc.webSocketDisconnect) =>
    { modelInvoked := inv, channelClosed := true, closeCode := none, loggedError := false }
  | (inv, Except.error _) =>
    { modelInvoked := inv, channelClosed := false, closeCode := none, loggedError := true }

/-- `str(e)` for an embedded Python exception. -/
def pyExcStr : PyExc → String
  | PyExc.indexError => "list index out of range"
  | PyExc.typeError m => m
  | PyExc.keyError k => k
  | PyExc.webSocketException _ reason => reason
  | PyExc.webSocketDisconnect => "websocket disconnect"
  | PyExc.metricsError => "metrics increment failed"

/-- An item yielded by the single-shot SSE generator: a frame or a terminal
error text. -/
inductive SseItem
  | frameItem (f : Frame)
  | errorText (s : String)
  deriving DecidableEq, Repr

/-- Embeds `raise HTTPException(code=403, reason=...)` at `chat.py:177`:
`HTTPException.__init__` accepts `status_code` and `detail`, so the keyword
arguments `code` and `reason` make the constructor call itself raise
`TypeError` before any `HTTPException` exists. -/
def httpExceptionKwargsError : PyExc :=
  PyExc.typeError "HTTPException.__init__ got an unexpected keyword argument code"

/-- The body of the `try` block of `handle_chat` (`chat.py:173` through
`chat.py:272`): authorization check before `astream_events`, then one turn.
The first component records whether the model-inference capability was
invoked. -/
def sseTryBody (owner userid pid : String) (metricsFail : Msg → Bool)
    (requireSummarization : Bool) (rawTitle : String) (events : List RunEvent)
    (ctrs : UsageCounters) : Bool × Except PyExc (List Frame × UsageCounters × Option PyExc) :=
  if !(owner == userid) then
    (false, Except.error httpExceptionKwargsError)
  else
    (true, Except.ok (runTurn userid pid none metricsFail requireSummarization rawTitle events ctrs))

/-- The items yielded by the `handle_chat` generator (`chat.py:172` through
`chat.py:277`): frames as they are produced; on any exception — whether raised
before the turn (authorization) or mid-turn — the generator yields `str(e)`
once and ends. -/
def handle_chat (owner userid pid : String) (metricsFail : Msg → Bool)
    (requireSummarization : Bool) (rawTitle : String) (events : List RunEvent)
    (ctrs : UsageCounters) : Bool × List SseItem :=
  match sseTryBody owner userid pid metricsFail requireSummarization rawTitle events ctrs with
  | (inv, Except.ok (fs, _, none)) => (inv, fs.map SseItem.frameItem)
  | (inv, Except.ok (fs, _, some ex)) =>
    (inv, fs.map SseItem.frameItem ++ [SseItem.errorText (pyExcStr ex)])
  | (inv, Except.error e) => (inv, [SseItem.errorText (pyExcStr e)])

/-! ### Concrete inputs used to exercise the state machine -/

/-- The inbound user message of a turn (`{"messages": [("user", content)]}`). -/
def userHi : Msg := { role := Role.user, content := "hi" }

/-- A model reply that requests one pending tool invocation. -/
def toolCallReply : Msg := { role := Role.assistant, content := "", toolCalls := ["lookup"] }

/-- The tool-result message appended by the tool node. -/
def toolResult : Msg := { role := Role.tool, content := "result" }

/-- An agent configuration with tools, whose model requests a tool invocation
on every generation. The zero token counter keeps the whole transcript inside
the budget so the trimmed window always starts at the initial user message. -/
def loopCfg : AgentCfg :=
  { classifier := none
    hazardCat := fun _ => none
    tokenCounter := fun _ => 0
    maxInputTokens := 16
    model := fun _ _ => toolCallReply
    toolExec := fun _ => toolResult
    hasTools := true
    now := "2026-10-12" }

/-- Invariant maintained by every reachable state of `loopCfg`: execution has
not reached the terminal node, the transcript is non-empty, it starts with a
`user` message, and no message carries a hazard tag. -/
def loopInvariant (st : GNode × List Msg) : Prop :=
  st.1 ≠ GNode.terminalNode ∧
  st.2 ≠ [] ∧
  (st.2.head?.all (fun m => decide (m.role = Role.user)) = true) ∧
  ∀ m ∈ st.2, m.hazard = none

theorem trimAcc_isPrefixDecomp (C : Msg → Nat) (B : Nat) :
    ∀ (l : List Msg) (a : Nat), ∃ t, l = trimAcc C B a l ++ t := by
  intro l
  induction l with
  | nil => intro a; exact ⟨[], rfl⟩
  | cons m rest ih =>
    intro a
    by_cases h : a + C m ≤ B
    · obtain ⟨t, ht⟩ := ih (a + C m)
      exact ⟨t, by simp [trimAcc, h, ← ht]⟩
    · exact ⟨m :: rest, by simp [trimAcc, h]⟩

theorem budgetSuffix_isSuffixDecomp (C : Msg → Nat) (B : Nat) (msgs : List Msg) :
    ∃ t, msgs = t ++ budgetSuffix C B msgs := by
  obtain ⟨t, ht⟩ := trimAcc_isPrefixDecomp C B msgs.reverse 0
  refine ⟨t.reverse, ?_⟩
  have := congrArg List.reverse ht
  simpa [budgetSuffix] using this

theorem dropWhile_isSuffixDecomp {α : Type} (p : α → Bool) :
    ∀ l : List α, ∃ t, l = t ++ l.dropWhile p := by
  intro l
  induction l with
  | nil => exact ⟨[], rfl⟩
  | cons m rest ih =>
    by_cases h : p m
    · obtain ⟨t, ht⟩ := ih
      exact ⟨m :: t, by simp [List.dropWhile_cons, h, ← ht]⟩
    · exact ⟨[], by simp [List.dropWhile_cons, h]⟩

theorem trimAcc_cost (C : Msg → Nat) (B : Nat) :
    ∀ (l : List Msg) (a : Nat),
      a + sumCost C (trimAcc C B a l) ≤ B ∨ trimAcc C B a l = [] := by
  intro l
  induction l with
  | nil => intro a; right; rfl
  | cons m rest ih =>
    intro a
    by_cases h : a + C m ≤ B
    · left
      rcases ih (a + C m) with hle | hnil
      · calc a + sumCost C (trimAcc C B a (m :: rest))
            = a + C m + sumCost C (trimAcc C B (a + C m) rest) := by
              simp [trimAcc, h, sumCost, Nat.add_assoc]
          _ ≤ B := hle
      · calc a + sumCost C (trimAcc C B a (m :: rest))
            = a + C m + sumCost C (trimAcc C B (a + C m) rest) := by
              simp [trimAcc, h, sumCost, Nat.add_assoc]
          _ = a + C m := by simp [hnil, sumCost]
          _ ≤ B := h
    · right; simp [trimAcc, h]

theorem budgetSuffix_cost (C : Msg → Nat) (B : Nat) (msgs : List Msg) :
    sumCost C (budgetSuffix C B msgs) ≤ B := by
  rcases trimAcc_cost C B msgs.reverse 0 with hle | hnil
  · have : sumCost C (budgetSuffix C B msgs) = sumCost C (trimAcc C B 0 msgs.reverse) := by
      simp [budgetSuffix, sumCost, List.sum_reverse]
    omega
  · simp [budgetSuffix, hnil, sumCost]

theorem sumCost_suffix_le (C : Msg → Nat) (t l : List Msg) :
    sumCost C l ≤ sumCost C (t ++ l) := by
  simp only [sumCost, List.map_append, List.sum_append]
  omega

theorem head?_dropWhile_negates {α : Type} (p : α → Bool) :
    ∀ l : List α, ∀ m ∈ (l.dropWhile p).head?, p m = false := by
  intro l
  induction l with
  | nil => intro m hm; simp at hm
  | cons x rest ih =>
    intro m hm
    by_cases h : p x
    · exact ih m (by simpa [List.dropWhile_cons, h] using hm)
    · simp only [List.dropWhile_cons, if_neg h, List.head?_cons, Option.mem_def,
        Option.some.injEq] at hm
      subst hm
      exact Bool.eq_false_iff.mpr h

/-- C1: for every message sequence `S`, per-message token-costing function `C`
and token budget `B`, the window produced by the context trimmer used in the
Generate step is a contiguous suffix of `S`, its total cost is at most `B`,
and if the window is non-empty its first message has role `user`. -/
theorem trimmer_suffix_cost_user (C : Msg → Nat) (B : Nat) (S : List Msg) :
    (∃ t, S = t ++ trimMessages C B S) ∧
    sumCost C (trimMessages C B S) ≤ B ∧
    ((trimMessages C B S).head?.all (fun m => decide (m.role = Role.user))) = true := by
  have hdrop := dropWhile_isSuffixDecomp
    (fun m => !(decide (m.role = Role.user))) (budgetSuffix C B S)
  refine ⟨?_, ?_, ?_⟩
  · obtain ⟨t1, h1⟩ := budgetSuffix_isSuffixDecomp C B S
    obtain ⟨t2, h2⟩ := hdrop
    have h2' : budgetSuffix C B S = t2 ++ trimMessages C B S := h2
    refine ⟨t1 ++ t2, ?_⟩
    calc S = t1 ++ budgetSuffix C B S := h1
      _ = t1 ++ (t2 ++ trimMessages C B S) := by rw [← h2']
      _ = (t1 ++ t2) ++ trimMessages C B S := by rw [List.append_assoc]
  · obtain ⟨t2, h2⟩ := hdrop
    have h2' : budgetSuffix C B S = t2 ++ trimMessages C B S := h2
    have hle : sumCost C (trimMessages C B S) ≤ sumCost C (budgetSuffix C B S) := by
      calc sumCost C (trimMessages C B S)
          ≤ sumCost C (t2 ++ trimMessages C B S) := sumCost_suffix_le C t2 _
        _ = sumCost C (budgetSuffix C B S) := by rw [← h2']
    exact le_trans hle (budgetSuffix_cost C B S)
  · cases hh : (trimMessages C B S).head? with
    | none => rfl
    | some m =>
      have hmem : m ∈ ((budgetSuffix C B S).dropWhile
          (fun m => !(decide (m.role = Role.user)))).head? := by
        rw [show ((budgetSuffix C B S).dropWhile
            (fun m => !(decide (m.role = Role.user)))) = trimMessages C B S from rfl, hh]
        rfl
      have := head?_dropWhile_negates
        (fun m => !(decide (m.role = Role.user))) (budgetSuffix C B S) m hmem
      simp only [Bool.not_eq_false'] at this
      simp [Option.all, this]

theorem filterMap_frameOf_skips_nonmodel (pid : String) (conv : Option String) :
    ∀ l : List RunEvent,
      l.filterMap (frameOf pid conv) =
        (l.filter (fun e => kindIsModel e.kind)).filterMap (frameOf pid conv) := by
  intro l
  induction l with
  | nil => rfl
  | cons e rest ih =>
    cases hk : e.kind <;>
      simp [List.filterMap_cons, List.filter_cons, kindIsModel, kindIsStart, kindIsStream,
        kindIsEnd, frameOf, hk, ih]

theorem translate_eq_modelSurvivors (pid : String) (conv : Option String)
    (events : List RunEvent) :
    translate pid conv events = (modelSurvivors events).filterMap (frameOf pid conv) := by
  unfold translate modelSurvivors
  exact filterMap_frameOf_skips_nonmodel pid conv (events.filter surviving)

theorem filterMap_frameOf_streams (pid : String) (conv : Option String) :
    ∀ cs : List RunEvent, (∀ c ∈ cs, kindIsStream c.kind = true) →
      cs.filterMap (frameOf pid conv) =
        cs.map (fun c => Frame.chunkMsg pid c.runId conv (streamContent c.kind)) := by
  intro cs
  induction cs with
  | nil => intro _; rfl
  | cons c rest ih =>
    intro h
    have hc := h c (List.mem_cons_self c rest)
    have hrest := fun x hx => h x (List.mem_cons_of_mem c hx)
    cases hk : c.kind with
    | modelStream a => simp [List.filterMap_cons, frameOf, hk, streamContent, ih hrest]
    | modelStart => simp [kindIsStream, hk] at hc
    | modelEnd out => simp [kindIsStream, hk] at hc
    | otherEvent s => simp [kindIsStream, hk] at hc

/-- C2: for every incoming event sequence whose surviving model events consist
of one model-start event, stream events in receipt order, and one model-end
event, the translator drops every event whose name starts with the private
marker and every event tagged `internal`, and emits exactly one Start frame,
the Chunk frames in receipt order, and exactly one End frame — never
reordered and never duplicated. -/
theorem frame_ordering_translate (pid : String) (conv : Option String)
    (events : List RunEvent) (s e : RunEvent) (cs : List RunEvent)
    (hsur : modelSurvivors events = s :: cs ++ [e])
    (hs : kindIsStart s.kind = true)
    (hcs : ∀ c ∈ cs, kindIsStream c.kind = true)
    (he : kindIsEnd e.kind = true) :
    translate pid conv events =
      Frame.startMsg pid s.runId conv
        :: cs.map (fun c => Frame.chunkMsg pid c.runId conv (streamContent c.kind))
        ++ [Frame.endMsg pid e.runId conv] := by
  rw [translate_eq_modelSurvivors, hsur]
  cases hks : s.kind <;> simp [kindIsStart, hks] at hs
  cases hke : e.kind <;> simp [kindIsEnd, hke] at he
  simp [List.filterMap_cons, List.filterMap_append, frameOf, hks, hke,
    filterMap_frameOf_streams pid conv cs hcs]

theorem frame_ordering_translate_witness :
    translate "p0" (some "c0")
      [⟨"_Exception", [], "r1", EventKind.otherEvent "exception"⟩,
       ⟨"ChatOpenAI", [], "r1", EventKind.modelStart⟩,
       ⟨"RunnableSequence", ["internal"], "r1", EventKind.modelStream "noise"⟩,
       ⟨"ChatOpenAI", [], "r1", EventKind.modelStream "Hel"⟩,
       ⟨"ChatOpenAI", [], "r1", EventKind.modelStream "lo"⟩,
       ⟨"ToolNode", [], "r1", EventKind.otherEvent "on_tool_start"⟩,
       ⟨"ChatOpenAI", [], "r1",
         EventKind.modelEnd { role := Role.assistant, content := "Hello" }⟩] =
      [Frame.startMsg "p0" "r1" (some "c0"),
       Frame.chunkMsg "p0" "r1" (some "c0") "Hel",
       Frame.chunkMsg "p0" "r1" (some "c0") "lo",
       Frame.endMsg "p0" "r1" (some "c0")] := by
  exact frame_ordering_translate "p0" (some "c0") _
    ⟨"ChatOpenAI", [], "r1", EventKind.modelStart⟩
    ⟨"ChatOpenAI", [], "r1", EventKind.modelEnd { role := Role.assistant, content := "Hello" }⟩
    [⟨"ChatOpenAI", [], "r1", EventKind.modelStream "Hel"⟩,
     ⟨"ChatOpenAI", [], "r1", EventKind.modelStream "lo"⟩]
    (by decide) rfl (by decide) rfl

/-- C3 (actual behavior at the failing input): when the requester identity
differs from the conversation owner, neither transport invokes the
model-inference capability; but on the persistent channel the
`WebSocketException(3403)` raised by the authorization check is caught by the
blanket `except Exception` handler, which logs it and keeps the channel open —
the channel is NOT closed with the policy-violation status code. The
single-shot stream yields one terminal error text and ends (via the
`TypeError` that the malformed `HTTPException(code=..., reason=...)` call
raises). -/
theorem authorization_outcome_bug (owner userid pid : String) (conv : Option String)
    (metricsFail : Msg → Bool) (rq : Bool) (raw : String) (events : List RunEvent)
    (ctrs : UsageCounters) (h : owner ≠ userid) :
    chatWsIteration owner userid pid conv metricsFail rq raw events ctrs =
      { modelInvoked := false, channelClosed := false, closeCode := none,
        loggedError := true } ∧
    handle_chat owner userid pid metricsFail rq raw events ctrs =
      (false, [SseItem.errorText (pyExcStr httpExceptionKwargsError)]) := by
  have hb : (owner == userid) = false := beq_eq_false_iff_ne.mpr h
  constructor
  · simp [chatWsIteration, wsTryBody, hb]
  · simp [handle_chat, sseTryBody, hb]

theorem authorization_outcome_bug_witness :
    chatWsIteration "alice" "bob" "p0" none (fun _ => false) false "" []
        ⟨fun _ => 0, fun _ => 0⟩ =
      { modelInvoked := false, channelClosed := false, closeCode := none,
        loggedError := true } ∧
    handle_chat "alice" "bob" "p0" (fun _ => false) false "" []
        ⟨fun _ => 0, fun _ => 0⟩ =
      (false, [SseItem.errorText (pyExcStr httpExceptionKwargsError)]) :=
  authorization_outcome_bug "alice" "bob" "p0" none (fun _ => false) false "" []
    ⟨fun _ => 0, fun _ => 0⟩ (by decide)

/-- C4 (actual behavior at the failing input): when the classifier returns
verdict `unsafe` with a non-null category on the last transcript message, the
input guard does merge the hazard category into exactly that message; but the
Generate step then crashes: `state["messages"] + hint_message` concatenates a
list with a single `SystemMessage`, raising `TypeError`, so the hint message is
never included in any model input. -/
theorem hazard_roundtrip_bug (msgs : List Msg) (last : Msg) (c : String)
    (hazardCat : String → Option String) (C : Msg → Nat) (B : Nat)
    (model : List Msg → String → Msg) (now : String)
    (hlast : msgs.getLast? = some last) (hc : c ≠ "") :
    inputGuard (some (fun _ => ("unsafe", some c))) msgs =
      Except.ok (msgs.dropLast ++ [{ last with hazard := some c }]) ∧
    chatbot hazardCat C B model now (msgs.dropLast ++ [{ last with hazard := some c }]) =
      Except.error (PyExc.typeError "can only concatenate list (not SystemMessage) to list") := by
  constructor
  · simp [inputGuard, hlast]
  · have hl2 : (msgs.dropLast ++ [{ last with hazard := some c }]).getLast? =
        some { last with hazard := some c } := List.getLast?_concat _
    simp [chatbot, hl2, hc, pyListAddMessage]

theorem hazard_roundtrip_bug_witness :
    inputGuard (some (fun _ => ("unsafe", some "S1"))) [userHi] =
      Except.ok [{ userHi with hazard := some "S1" }] ∧
    chatbot (fun _ => some "Violent Crimes") (fun _ => 1) 16
        (fun _ _ => { role := Role.assistant, content := "" }) "2026-10-12"
        [{ userHi with hazard := some "S1" }] =
      Except.error (PyExc.typeError "can only concatenate list (not SystemMessage) to list") :=
  hazard_roundtrip_bug [userHi] userHi "S1" (fun _ => some "Violent Crimes") (fun _ => 1) 16
    (fun _ _ => { role := Role.assistant, content := "" }) "2026-10-12" rfl (by decide)

/-- C5 (actual behavior at the failing input): for a transcript whose trimmed
window is empty (here a single non-`user` message under the fallback
one-unit-per-message counter and budget sixteen), the Generate step does not
treat the empty window as a handled state: indexing `windowed_messages[-1]`
raises `IndexError` and the turn crashes. -/
theorem empty_window_crash :
    trimMessages (fun _ => 1) 16 [{ role := Role.assistant, content := "hi" }] = [] ∧
    chatbot (fun _ => none) (fun _ => 1) 16
        (fun _ _ => { role := Role.assistant, content := "" }) "2026-10-12"
        [{ role := Role.assistant, content := "hi" }] =
      Except.error PyExc.indexError := by
  constructor
  · rfl
  · rfl

theorem mem_of_getLast?_eq {α : Type} {l : List α} {a : α} (h : l.getLast? = some a) :
    a ∈ l := by
  obtain ⟨hne, rfl⟩ := List.mem_getLast?_eq_getLast (show a ∈ l.getLast? from h)
  exact List.getLast_mem hne

theorem trimAcc_zeroCost (B : Nat) :
    ∀ (l : List Msg) (a : Nat), a ≤ B → trimAcc (fun _ => 0) B a l = l := by
  intro l
  induction l with
  | nil => intro a _; rfl
  | cons m rest ih =>
    intro a ha
    simp [trimAcc, Nat.add_zero, ha, ih a ha]

theorem trimMessages_zeroCost_userHead (B : Nat) (msgs : List Msg)
    (hne : msgs ≠ [])
    (hhead : msgs.head?.all (fun m => decide (m.role = Role.user)) = true) :
    trimMessages (fun _ => 0) B msgs = msgs := by
  have hbs : budgetSuffix (fun _ => 0) B msgs = msgs := by
    simp [budgetSuffix, trimAcc_zeroCost B msgs.reverse 0 (Nat.zero_le B)]
  cases msgs with
  | nil => exact absurd rfl hne
  | cons m rest =>
    have hm : decide (m.role = Role.user) = true := by
      simpa [Option.all] using hhead
    simp only [trimMessages, hbs, startOnUser, List.dropWhile_cons, hm,
      Bool.not_true, if_neg]
    simp

theorem loopInvariant_step (st : GNode × List Msg) (h : loopInvariant st) :
    ∃ st2, agentStep loopCfg st = Except.ok st2 ∧ loopInvariant st2 := by
  obtain ⟨hnode, hne, hhead, hhaz⟩ := h
  obtain ⟨node, msgs⟩ := st
  have hheadPreserved : ∀ extra : List Msg,
      ((msgs ++ extra).head?.all (fun m => decide (m.role = Role.user)) = true) := by
    intro extra
    cases msgs with
    | nil => exact absurd rfl hne
    | cons m rest => simpa [Option.all] using hhead
  cases node with
  | terminalNode => exact absurd rfl hnode
  | inputGuardNode =>
    refine ⟨(GNode.chatbotNode, msgs), ?_, ?_⟩
    · simp [agentStep, inputGuard, loopCfg]
    · exact ⟨by simp, hne, hhead, hhaz⟩
  | chatbotNode =>
    obtain ⟨last, hlast⟩ : ∃ last, msgs.getLast? = some last := by
      cases hq : msgs.getLast? with
      | none => exact absurd (List.getLast?_eq_none_iff.mp hq) hne
      | some a => exact ⟨a, rfl⟩
    have hlasthaz : last.hazard = none := hhaz last (mem_of_getLast?_eq hlast)
    have hwin : trimMessages (fun _ => 0) 16 msgs = msgs :=
      trimMessages_zeroCost_userHead 16 msgs hne hhead
    have hcb : chatbot loopCfg.hazardCat loopCfg.tokenCounter loopCfg.maxInputTokens
        loopCfg.model loopCfg.now msgs = Except.ok [toolCallReply] := by
      simp [chatbot, hlast, hlasthaz, loopCfg, hwin, hlast]
    refine ⟨(GNode.toolsNode, msgs ++ [toolCallReply]), ?_, ?_, ?_, ?_, ?_⟩
    · have hnext : chatbotNext loopCfg.hasTools (msgs ++ [toolCallReply]) =
          Except.ok GNode.toolsNode := by
        simp [chatbotNext, loopCfg, shouldContinue, List.getLast?_concat, toolCallReply]
      simp [agentStep, hcb, hnext]
    · simp
    · simp
    · exact hheadPreserved [toolCallReply]
    · intro m hm
      rcases List.mem_append.mp hm with hm | hm
      · exact hhaz m hm
      · simp at hm; subst hm; rfl
  | toolsNode =>
    obtain ⟨last, hlast⟩ : ∃ last, msgs.getLast? = some last := by
      cases hq : msgs.getLast? with
      | none => exact absurd (List.getLast?_eq_none_iff.mp hq) hne
      | some a => exact ⟨a, rfl⟩
    refine ⟨(GNode.chatbotNode, msgs ++ last.toolCalls.map loopCfg.toolExec), ?_, ?_, ?_, ?_, ?_⟩
    · simp [agentStep, toolNode, hlast]
    · simp
    · simp [hne]
    · exact hheadPreserved _
    · intro m hm
      rcases List.mem_append.mp hm with hm | hm
      · exact hhaz m hm
      · obtain ⟨a, _, rfl⟩ := List.mem_map.mp hm
        rfl

theorem loopRun_outOfFuel :
    ∀ (n : Nat) (st : GNode × List Msg), loopInvariant st →
      (agentRun loopCfg n st).isOutOfFuel = true := by
  intro n
  induction n with
  | zero =>
    intro st h
    obtain ⟨hnode, _, _, _⟩ := h
    simp [agentRun, hnode, RunResult.isOutOfFuel]
  | succ k ih =>
    intro st h
    have hnode := h.1
    obtain ⟨st2, hstep, h2⟩ := loopInvariant_step st h
    simp [agentRun, hnode, hstep, ih st2 h2]

/-- C6 counterexample: the claim asserts a maximum iteration cap guarding the
Generate → ToolLoop cycle, so that every turn terminates even when the model
requests a tool invocation on every generation. With `loopCfg` — whose model
requests a tool on every generation — the run exhausts any amount of fuel
without terminating: no number of execution steps completes the turn, so no
cap exists in the code. -/
theorem tool_loop_unbounded_cex :
    ¬ ∃ n, (agentRun loopCfg n (GNode.inputGuardNode, [userHi])).isOutOfFuel = false := by
  rintro ⟨n, hn⟩
  have hrun := loopRun_outOfFuel n (GNode.inputGuardNode, [userHi])
    ⟨by decide, by decide, by decide, by decide⟩
  rw [hrun] at hn
  exact absurd hn (by decide)

/-- C6 amended: the Generate → ToolLoop cycle of the compiled state machine
has no iteration cap: `should_continue` inspects only whether the last message
carries pending tool calls, so with a model that requests a tool invocation on
every generation the turn never reaches the terminal state, however many
execution steps are allowed. -/
theorem tool_loop_no_cap (n : Nat) :
    (agentRun loopCfg n (GNode.inputGuardNode, [userHi])).isOutOfFuel = true :=
  loopRun_outOfFuel n (GNode.inputGuardNode, [userHi])
    ⟨by decide, by decide, by decide, by decide⟩

/-- C10: when the agent is constructed with no tools, the compiled state
machine routes the Generate step unconditionally to the terminal state, so a
turn performs exactly one generation and finishes with the transcript extended
by exactly the one model reply — for every model, including one whose reply
carries pending tool-invocation requests, and independently of the tool
executor, which is never invoked. -/
theorem no_tools_single_generation (model : List Msg → String → Msg)
    (toolExec : String → Msg) (now : String) :
    (∀ msgs, chatbotNext false msgs = Except.ok GNode.terminalNode) ∧
    agentRun
      { classifier := none, hazardCat := fun _ => none, tokenCounter := fun _ => 1,
        maxInputTokens := 16, model := model, toolExec := toolExec, hasTools := false,
        now := now } 3 (GNode.inputGuardNode, [userHi]) =
      RunResult.finished [userHi, model [userHi] now] := by
  constructor
  · intro msgs; rfl
  · rfl

theorem takeWhile_quote_replicate (l : List Char) :
    l.takeWhile (fun c => c == quoteChar) =
      List.replicate (l.takeWhile (fun c => c == quoteChar)).length quoteChar := by
  apply List.eq_replicate_iff.mpr
  refine ⟨rfl, ?_⟩
  intro b hb
  have hbq := List.mem_takeWhile_imp (p := fun c => c == quoteChar) (x := b) hb
  exact eq_of_beq hbq

theorem stripQuoteList_decomp (l : List Char) :
    ∃ a b, l = List.replicate a quoteChar ++ stripQuoteList l ++ List.replicate b quoteChar := by
  refine ⟨(l.takeWhile (fun c => c == quoteChar)).length,
    ((l.dropWhile (fun c => c == quoteChar)).reverse.takeWhile (fun c => c == quoteChar)).length,
    ?_⟩
  have h1 : l = l.takeWhile (fun c => c == quoteChar) ++ l.dropWhile (fun c => c == quoteChar) :=
    (List.takeWhile_append_dropWhile _ l).symm
  have h2 : (l.dropWhile (fun c => c == quoteChar)).reverse =
      (l.dropWhile (fun c => c == quoteChar)).reverse.takeWhile (fun c => c == quoteChar)
        ++ (l.dropWhile (fun c => c == quoteChar)).reverse.dropWhile (fun c => c == quoteChar) :=
    (List.takeWhile_append_dropWhile _ _).symm
  have h3 : l.dropWhile (fun c => c == quoteChar) =
      stripQuoteList l
        ++ ((l.dropWhile (fun c => c == quoteChar)).reverse.takeWhile
              (fun c => c == quoteChar)).reverse := by
    calc l.dropWhile (fun c => c == quoteChar)
        = (l.dropWhile (fun c => c == quoteChar)).reverse.reverse := (List.reverse_reverse _).symm
      _ = ((l.dropWhile (fun c => c == quoteChar)).reverse.takeWhile (fun c => c == quoteChar)
            ++ (l.dropWhile (fun c => c == quoteChar)).reverse.dropWhile
                 (fun c => c == quoteChar)).reverse := by rw [← h2]
      _ = stripQuoteList l
            ++ ((l.dropWhile (fun c => c == quoteChar)).reverse.takeWhile
                  (fun c => c == quoteChar)).reverse := by
          rw [List.reverse_append]; rfl
  calc l = l.takeWhile (fun c => c == quoteChar) ++ l.dropWhile (fun c => c == quoteChar) := h1
    _ = l.takeWhile (fun c => c == quoteChar)
          ++ (stripQuoteList l
            ++ ((l.dropWhile (fun c => c == quoteChar)).reverse.takeWhile
                  (fun c => c == quoteChar)).reverse) := by rw [← h3]
    _ = List.replicate (l.takeWhile (fun c => c == quoteChar)).length quoteChar
          ++ stripQuoteList l
          ++ List.replicate
              ((l.dropWhile (fun c => c == quoteChar)).reverse.takeWhile
                (fun c => c == quoteChar)).length quoteChar := by
        rw [takeWhile_quote_replicate l, takeWhile_quote_replicate
          (l.dropWhile (fun c => c == quoteChar)).reverse]
        simp [List.reverse_replicate, List.append_assoc]

theorem stripQuoteList_head (l : List Char) :
    (stripQuoteList l).head?.all (fun c => !(c == quoteChar)) = true := by
  have h2 : (l.dropWhile (fun c => c == quoteChar)).reverse =
      (l.dropWhile (fun c => c == quoteChar)).reverse.takeWhile (fun c => c == quoteChar)
        ++ (l.dropWhile (fun c => c == quoteChar)).reverse.dropWhile (fun c => c == quoteChar) :=
    (List.takeWhile_append_dropWhile _ _).symm
  have h3 : l.dropWhile (fun c => c == quoteChar) =
      stripQuoteList l
        ++ ((l.dropWhile (fun c => c == quoteChar)).reverse.takeWhile
              (fun c => c == quoteChar)).reverse := by
    calc l.dropWhile (fun c => c == quoteChar)
        = (l.dropWhile (fun c => c == quoteChar)).reverse.reverse := (List.reverse_reverse _).symm
      _ = ((l.dropWhile (fun c => c == quoteChar)).reverse.takeWhile (fun c => c == quoteChar)
            ++ (l.dropWhile (fun c => c == quoteChar)).reverse.dropWhile
                 (fun c => c == quoteChar)).reverse := by rw [← h2]
      _ = stripQuoteList l
            ++ ((l.dropWhile (fun c => c == quoteChar)).reverse.takeWhile
                  (fun c => c == quoteChar)).reverse := by
          rw [List.reverse_append]; rfl
  cases hs : stripQuoteList l with
  | nil => simp [hs]
  | cons x xs =>
    have hxd : (l.dropWhile (fun c => c == quoteChar)).head? = some x := by
      rw [h3, hs]; rfl
    have hqx := head?_dropWhile_negates (fun c => c == quoteChar) l x hxd
    simp [Option.all, hqx]

theorem stripQuoteList_getLast (l : List Char) :
    (stripQuoteList l).getLast?.all (fun c => !(c == quoteChar)) = true := by
  have hrev : (stripQuoteList l).getLast? =
      ((l.dropWhile (fun c => c == quoteChar)).reverse.dropWhile
        (fun c => c == quoteChar)).head? :=
    List.getLast?_reverse _
  rw [hrev]
  cases hh : ((l.dropWhile (fun c => c == quoteChar)).reverse.dropWhile
      (fun c => c == quoteChar)).head? with
  | none => rfl
  | some c =>
    have hqc := head?_dropWhile_negates (fun c => c == quoteChar)
      (l.dropWhile (fun c => c == quoteChar)).reverse c hh
    simp [Option.all, hqc]

/-- C7 counterexample: the claim states that exactly one leading/trailing
quote pair is removed, with further repeated leading/trailing quotes left
intact, so a raw output wrapped in two quote pairs would store with one pair
remaining. `str.strip` removes ALL leading and trailing quote characters: the
stored title for the doubly quoted Hello World retains no quotes, which is not
the singly quoted string the claim predicts. -/
theorem title_strip_single_pair_cex :
    (titleEpilogue none "\"\"Hello World\"\"").title = "Hello World" ∧
    ("Hello World" : String) ≠ "\"Hello World\"" := by
  constructor
  · rfl
  · decide

/-- C7 amended: for every raw title string returned by the summarization
capability, the stored conversation title equals the raw string with ALL
leading and ALL trailing quote characters removed — the remainder is a
contiguous segment of the raw string flanked by (possibly empty) runs of
quotes, and it neither starts nor ends with a quote, so all interior quote
characters are intact; in particular a raw output consisting of Hello World
wrapped in one pair of quote characters is stored as Hello World. -/
theorem title_strip_amended (raw : String) :
    (∃ a b, raw.toList =
      List.replicate a quoteChar ++ ((titleEpilogue none raw).title).toList
        ++ List.replicate b quoteChar) ∧
    (((titleEpilogue none raw).title).toList.head?.all (fun c => !(c == quoteChar)) = true) ∧
    (((titleEpilogue none raw).title).toList.getLast?.all (fun c => !(c == quoteChar)) = true) ∧
    (titleEpilogue none "\"Hello World\"").title = "Hello World" := by
  have ht : ((titleEpilogue none raw).title).toList = stripQuoteList raw.toList := rfl
  refine ⟨?_, ?_, ?_, ?_⟩
  · rw [ht]; exact stripQuoteList_decomp raw.toList
  · rw [ht]; exact stripQuoteList_head raw.toList
  · rw [ht]; exact stripQuoteList_getLast raw.toList
  · rfl

theorem turnLoop_append (userid pid : String) (conv : Option String) (mf : Msg → Bool)
    (rest : List RunEvent) :
    ∀ (pre : List RunEvent) (ctrs : UsageCounters) (fs : List Frame) (c1 : UsageCounters),
      turnLoop userid pid conv mf pre ctrs = (fs, c1, none) →
      turnLoop userid pid conv mf (pre ++ rest) ctrs =
        (fs ++ (turnLoop userid pid conv mf rest c1).1,
         (turnLoop userid pid conv mf rest c1).2) := by
  intro pre
  induction pre with
  | nil =>
    intro ctrs fs c1 h
    have h' : ([] : List Frame) = fs ∧ ctrs = c1 ∧ (none : Option PyExc) = none := by
      simpa [turnLoop, Prod.mk.injEq] using h
    obtain ⟨hfs, hc, -⟩ := h'
    subst hfs; subst hc
    simp [turnLoop]
  | cons e pre ih =>
    intro ctrs fs c1 h
    by_cases hs : surviving e
    · cases hk : e.kind with
      | modelStart =>
        rcases hr : turnLoop userid pid conv mf pre ctrs with ⟨fs', c', err'⟩
        have h' : Frame.startMsg pid e.runId conv :: fs' = fs ∧ c' = c1 ∧ err' = none := by
          simpa [turnLoop, hs, hk, hr, Prod.mk.injEq] using h
        obtain ⟨hfs, hc, herr⟩ := h'
        subst herr
        have hrec := ih ctrs fs' c' hr
        rw [← hfs, ← hc]
        simp [turnLoop, hs, hk, hrec]
      | modelStream ch =>
        rcases hr : turnLoop userid pid conv mf pre ctrs with ⟨fs', c', err'⟩
        have h' : Frame.chunkMsg pid e.runId conv ch :: fs' = fs ∧ c' = c1 ∧ err' = none := by
          simpa [turnLoop, hs, hk, hr, Prod.mk.injEq] using h
        obtain ⟨hfs, hc, herr⟩ := h'
        subst herr
        have hrec := ih ctrs fs' c' hr
        rw [← hfs, ← hc]
        simp [turnLoop, hs, hk, hrec]
      | modelEnd out =>
        cases hm : metricsCall mf ctrs userid out with
        | error ex => simp [turnLoop, hs, hk, hm] at h
        | ok c2 =>
          rcases hr : turnLoop userid pid conv mf pre c2 with ⟨fs', c', err'⟩
          have h' : Frame.endMsg pid e.runId conv :: fs' = fs ∧ c' = c1 ∧ err' = none := by
            simpa [turnLoop, hs, hk, hm, hr, Prod.mk.injEq] using h
          obtain ⟨hfs, hc, herr⟩ := h'
          subst herr
          have hrec := ih c2 fs' c' hr
          rw [← hfs, ← hc]
          simp [turnLoop, hs, hk, hm, hrec]
      | otherEvent s =>
        have h' : turnLoop userid pid conv mf pre ctrs = (fs, c1, none) := by
          simpa [turnLoop, hs, hk] using h
        have := ih ctrs fs c1 h'
        simpa [turnLoop, hs, hk] using this
    · have h' : turnLoop userid pid conv mf pre ctrs = (fs, c1, none) := by
        simpa [turnLoop, hs] using h
      have := ih ctrs fs c1 h'
      simpa [turnLoop, hs] using this

/-- C8 counterexample: with a metrics sink that raises on increment, a turn of
two runs delivers only the frames up to and including the first failing End
frame — the Start and End frames of the second run are never delivered — and
the epilogue (activity update and requested summarization) is skipped, so a
metrics failure does prevent delivery of subsequent frames of the same turn
and does abort the turn epilogue, contrary to the claim. -/
theorem metrics_failure_cex :
    (wsTurn "u1" "p" none (fun _ => true) true "t"
        [⟨"ChatOpenAI", [], "r1", EventKind.modelStart⟩,
         ⟨"ChatOpenAI", [], "r1", EventKind.modelEnd
           { role := Role.assistant, content := "",
             usageMetadata := some { inputTokens := 12, outputTokens := 34 },
             modelName := some "m1" }⟩,
         ⟨"ChatOpenAI", [], "r2", EventKind.modelStart⟩,
         ⟨"ChatOpenAI", [], "r2", EventKind.modelEnd
           { role := Role.assistant, content := "",
             usageMetadata := some { inputTokens := 5, outputTokens := 6 },
             modelName := some "m1" }⟩]
        ⟨fun _ => 0, fun _ => 0⟩).frames =
      [Frame.startMsg "p" "r1" none, Frame.endMsg "p" "r1" none] ∧
    (wsTurn "u1" "p" none (fun _ => true) true "t"
        [⟨"ChatOpenAI", [], "r1", EventKind.modelStart⟩,
         ⟨"ChatOpenAI", [], "r1", EventKind.modelEnd
           { role := Role.assistant, content := "",
             usageMetadata := some { inputTokens := 12, outputTokens := 34 },
             modelName := some "m1" }⟩,
         ⟨"ChatOpenAI", [], "r2", EventKind.modelStart⟩,
         ⟨"ChatOpenAI", [], "r2", EventKind.modelEnd
           { role := Role.assistant, content := "",
             usageMetadata := some { inputTokens := 5, outputTokens := 6 },
             modelName := some "m1" }⟩]
        ⟨fun _ => 0, fun _ => 0⟩).epilogueRan = false := by
  constructor
  · rfl
  · rfl

/-- C8 amended: a failure while incrementing the usage counters on an End
event is caught only by the turn-level blanket handler: it is logged and the
websocket channel survives, but it aborts the remainder of the turn — the
frames delivered are exactly those up to and including the failing End frame
(no event after it yields a frame), and the turn epilogue is skipped. -/
theorem metrics_failure_aborts_turn (userid pid : String) (conv : Option String)
    (mf : Msg → Bool) (rq : Bool) (raw : String) (pre post : List RunEvent) (e : RunEvent)
    (out : Msg) (ctrs c1 : UsageCounters) (fs : List Frame)
    (hpre : turnLoop userid pid conv mf pre ctrs = (fs, c1, none))
    (hsurv : surviving e = true)
    (hkind : e.kind = EventKind.modelEnd out)
    (hfail : metricsCall mf c1 userid out = Except.error PyExc.metricsError) :
    wsTurn userid pid conv mf rq raw (pre ++ e :: post) ctrs =
      { frames := fs ++ [Frame.endMsg pid e.runId conv], counters := c1,
        epilogueRan := false, loggedError := true } := by
  have happ := turnLoop_append userid pid conv mf (e :: post) pre ctrs fs c1 hpre
  have hee : turnLoop userid pid conv mf (e :: post) c1 =
      ([Frame.endMsg pid e.runId conv], c1, some PyExc.metricsError) := by
    simp [turnLoop, hsurv, hkind, hfail]
  rw [hee] at happ
  simp [wsTurn, runTurn, happ]

theorem metrics_failure_aborts_turn_witness :
    wsTurn "u1" "p" none (fun _ => true) true "t"
        ([⟨"ChatOpenAI", [], "r1", EventKind.modelStart⟩] ++
          ⟨"ChatOpenAI", [], "r1", EventKind.modelEnd
            { role := Role.assistant, content := "",
              usageMetadata := some { inputTokens := 12, outputTokens := 34 },
              modelName := some "m1" }⟩ ::
          [⟨"ChatOpenAI", [], "r2", EventKind.modelStart⟩])
        ⟨fun _ => 0, fun _ => 0⟩ =
      { frames := [Frame.startMsg "p" "r1" none] ++ [Frame.endMsg "p" "r1" none],
        counters := ⟨fun _ => 0, fun _ => 0⟩,
        epilogueRan := false, loggedError := true } :=
  metrics_failure_aborts_turn "u1" "p" none (fun _ => true) true "t"
    [⟨"ChatOpenAI", [], "r1", EventKind.modelStart⟩]
    [⟨"ChatOpenAI", [], "r2", EventKind.modelStart⟩]
    ⟨"ChatOpenAI", [], "r1", EventKind.modelEnd
      { role := Role.assistant, content := "",
        usageMetadata := some { inputTokens := 12, outputTokens := 34 },
        modelName := some "m1" }⟩
    { role := Role.assistant, content := "",
      usageMetadata := some { inputTokens := 12, outputTokens := 34 },
      modelName := some "m1" }
    ⟨fun _ => 0, fun _ => 0⟩ ⟨fun _ => 0, fun _ => 0⟩
    [Frame.startMsg "p" "r1" none] rfl rfl rfl rfl

/-- C9: for an End event whose final message carries usage metadata with
twelve input tokens and thirty-four output tokens and model name m1, processed
on behalf of user u1, the counters labeled (u1, m1) increase by exactly twelve
and thirty-four respectively while every other label pair is unchanged; and
for a final message carrying no usage metadata, no counter is incremented and
nothing is raised. -/
theorem usage_accounting (ctrs : UsageCounters) :
    (∃ c2, updateUsage ctrs "u1"
        { role := Role.assistant, content := "",
          usageMetadata := some { inputTokens := 12, outputTokens := 34 },
          modelName := some "m1" } = Except.ok c2 ∧
      c2.inputTokens ("u1", "m1") = ctrs.inputTokens ("u1", "m1") + 12 ∧
      c2.outputTokens ("u1", "m1") = ctrs.outputTokens ("u1", "m1") + 34 ∧
      ∀ p, p ≠ ("u1", "m1") →
        c2.inputTokens p = ctrs.inputTokens p ∧ c2.outputTokens p = ctrs.outputTokens p) ∧
    (∀ (u : String) (m : Msg), m.usageMetadata = none →
      updateUsage ctrs u m = Except.ok ctrs) := by
  constructor
  · refine ⟨_, rfl, ?_, ?_, ?_⟩
    · simp [counterInc]
    · simp [counterInc]
    · intro p hp
      constructor <;> simp [counterInc, hp]
  · intro u m hm
    simp [updateUsage, hm]

theorem usage_accounting_witness :
    updateUsage ⟨fun _ => 0, fun _ => 0⟩ "u9" { role := Role.user, content := "hi" } =
      Except.ok ⟨fun _ => 0, fun _ => 0⟩ :=
  (usage_accounting ⟨fun _ => 0, fun _ => 0⟩).2 "u9" { role := Role.user, content := "hi" } rfl

end Chatbot
